import Mathlib

/-!
# photonos: `scripts/render.js`

A shallow embedding of the render driver: the script reads two positional
arguments, launches a headless browser, navigates to the URL, optionally takes
a full-page screenshot whose image type is chosen from the output path, prints
the page HTML and closes the browser.

JavaScript strings are modelled as `List Char`.  The arguments of a process are
decoded text, so every string the script handles is a sequence of code points.
-/

namespace Render

/-- A JavaScript string. -/
abbrev JSString := List Char

/-! ## String primitives used by the script -/

/-- Lower-casing of one ASCII character: `A`..`Z` go to `a`..`z`, everything
else is unchanged. -/
def asciiLower (c : Char) : Char :=
  if 65 ≤ c.toNat ∧ c.toNat ≤ 90 then Char.ofNat (c.toNat + 32) else c

/-- The lower-casing of the characters outside ASCII is a table of the
JavaScript runtime, not of the script: it is a parameter.  It receives the text
before the character, the character, and the text after it, since the runtime's
mapping may look at the context. -/
abbrev NonAsciiLower := JSString → Char → JSString → JSString

/-- Lower-casing of the character `c` standing between `before` and `after`. -/
def lowerAt (u : NonAsciiLower) (before : JSString) (c : Char) (after : JSString) : JSString :=
  if c.toNat < 128 then [asciiLower c] else u before c after

/-- Lower-casing of the tail `s` of a string whose already processed part is `before`. -/
def toLowerCaseFrom (u : NonAsciiLower) (before : JSString) : JSString → JSString
  | [] => []
  | c :: rest => lowerAt u before c rest ++ toLowerCaseFrom u (before ++ [c]) rest

/-- The method `String.prototype.toLowerCase`. -/
def toLowerCase (u : NonAsciiLower) (s : JSString) : JSString :=
  toLowerCaseFrom u [] s

/-- The method `String.prototype.split` with a one-character separator: the pieces between
the occurrences of `sep`, in order.  The result always has at least one piece. -/
def split (sep : Char) : JSString → List JSString
  | [] => [[]]
  | c :: cs =>
    if c = sep then [] :: split sep cs
    else
      match split sep cs with
      | [] => [[c]]
      | seg :: segs => (c :: seg) :: segs

/-- The method `Array.prototype.pop`: the last element, `none` (undefined) on an empty array. -/
def pop (xs : List JSString) : Option JSString :=
  xs.getLast?

/-- The method `Array.prototype.includes`. -/
def includes (xs : List JSString) (x : JSString) : Bool :=
  xs.contains x

/-! ## Screenshot type inference (`render.js`, lines 18-27) -/

/-- The expression `screenshotPath.split('.').pop().toLowerCase()`; `none` stands for the
`TypeError` of calling a method on `undefined`. -/
def fileExtension (u : NonAsciiLower) (screenshotPath : JSString) : Option JSString :=
  (pop (split '.' screenshotPath)).map (toLowerCase u)

/-- The expression
`['png', 'jpeg', 'jpg', 'webp'].includes(fileExtension) ? fileExtension : 'png'`. -/
def typeOfExtension (fileExtension : JSString) : JSString :=
  if includes ["png".toList, "jpeg".toList, "jpg".toList, "webp".toList] fileExtension
  then fileExtension else "png".toList

/-- The expression `type === 'jpg' ? 'jpeg' : type`. -/
def playwrightType (type : JSString) : JSString :=
  if type = "jpg".toList then "jpeg".toList else type

/-- The options object handed to `page.screenshot`. -/
structure ScreenshotOptions where
  path : JSString
  fullPage : Bool
  type : JSString
  deriving DecidableEq, Repr

/-- The argument of the `page.screenshot` call for a given output path. -/
def screenshotOptions (u : NonAsciiLower) (screenshotPath : JSString) : Option ScreenshotOptions :=
  (fileExtension u screenshotPath).map fun ext =>
    { path := screenshotPath, fullPage := true, type := playwrightType (typeOfExtension ext) }

/-- A stand-in for the runtime's table that leaves the characters outside ASCII
as they are; used to evaluate the script on concrete ASCII inputs. -/
def keepNonAscii : NonAsciiLower := fun _ c _ => [c]

/-! ## Effects of the script -/

/-- The externally visible actions of a run, in the order they happen. -/
inductive Event where
  | consoleError (text : JSString)
  | processExit (code : Nat)
  | launch
  | newPage
  | goto (url : JSString) (waitUntil : JSString)
  | screenshot (options : ScreenshotOptions)
  | content
  | consoleLog (text : JSString)
  | close
  deriving DecidableEq, Repr

/-- Why a script stops before its last statement: `process.exit(code)`, or a
rejected promise that nothing catches. -/
inductive Stop where
  | exit (code : Nat)
  | reject
  deriving DecidableEq, Repr

/-- A computation of the script: the events it emits, and its value or the
reason it stopped. -/
def Script (α : Type) : Type := List Event × Except Stop α

/-- Sequencing: the second computation runs only when the first one returned. -/
def Script.bind {α β : Type} (m : Script α) (f : α → Script β) : Script β :=
  match m with
  | (t, Except.ok a) =>
    match f a with
    | (t2, r) => (t ++ t2, r)
  | (t, Except.error e) => (t, Except.error e)

instance : Monad Script where
  pure a := ([], Except.ok a)
  bind := Script.bind

/-- The outcome of every library call the script can make.  Each call is made
at most once in a run, so one outcome for each call describes the environment:
`true` or `some` is a resolved promise, `false` or `none` a rejected one. -/
structure World where
  lowerNonAscii : NonAsciiLower
  launch : Bool
  newPage : Bool
  goto : JSString → JSString → Bool
  screenshot : ScreenshotOptions → Bool
  content : Option JSString
  close : Bool

/-- An awaited library call: the call is recorded, and a rejection stops the script. -/
def await {α : Type} (e : Event) (r : Option α) : Script α :=
  ([e], match r with
        | some a => Except.ok a
        | none => Except.error Stop.reject)

/-- The value of a call that resolves to nothing of interest. -/
def resolved (ok : Bool) : Option Unit :=
  if ok then some () else none

/-- The call `console.error(text)`. -/
def consoleError (text : JSString) : Script Unit :=
  ([Event.consoleError text], Except.ok ())

/-- The call `console.log(text)`. -/
def consoleLog (text : JSString) : Script Unit :=
  ([Event.consoleLog text], Except.ok ())

/-- The call `process.exit(code)`: it does not return. -/
def processExit {α : Type} (code : Nat) : Script α :=
  ([Event.processExit code], Except.error (Stop.exit code))

/-- A `TypeError` thrown inside the async function: the promise is rejected. -/
def throwTypeError {α : Type} : Script α :=
  ([], Except.error Stop.reject)

/-- The value of the option `waitUntil` in the navigation call. -/
def networkidle : JSString := "networkidle".toList

/-- The diagnostic of the usage error. -/
def noUrlMessage : JSString := "❌ No URL provided.".toList

/-- JavaScript truthiness of `process.argv[i]`: `undefined` and the empty
string are falsy, every other string is truthy. -/
def truthy (v : Option JSString) : Bool :=
  match v with
  | none => false
  | some s => !s.isEmpty

/-- The string behind a value known to be a string. -/
def asString (v : Option JSString) : JSString :=
  v.getD []

/-- The body of the script, for the two values `process.argv[2]` and `process.argv[3]`. -/
def render (w : World) (url screenshotPath : Option JSString) : Script Unit := do
  if !truthy url then
    consoleError noUrlMessage
    processExit 1
  await Event.launch (resolved w.launch)
  await Event.newPage (resolved w.newPage)
  await (Event.goto (asString url) networkidle) (resolved (w.goto (asString url) networkidle))
  if truthy screenshotPath then
    match screenshotOptions w.lowerNonAscii (asString screenshotPath) with
    | none => throwTypeError
    | some options => await (Event.screenshot options) (resolved (w.screenshot options))
  let html ← await Event.content w.content
  consoleLog html
  await Event.close (resolved w.close)

/-- The script on the argument vector of the process (`argv[0]` is the node
binary, `argv[1]` the script). -/
def main (w : World) (argv : List JSString) : Script Unit :=
  render w argv[2]? argv[3]?

/-- How a run ends. -/
inductive Outcome where
  | completed
  | exited (code : Nat)
  | rejected
  deriving DecidableEq, Repr

/-- What is observed of a run. -/
structure Run where
  trace : List Event
  outcome : Outcome
  deriving DecidableEq, Repr

/-- The observation of a finished script. -/
def observe (m : Script Unit) : Run :=
  { trace := m.1
    outcome :=
      match m.2 with
      | Except.ok _ => Outcome.completed
      | Except.error (Stop.exit code) => Outcome.exited code
      | Except.error Stop.reject => Outcome.rejected }

/-- One invocation of the script. -/
def run (w : World) (argv : List JSString) : Run :=
  observe (main w argv)

/-- The exit status of the process: `0` after the last statement, the code of
`process.exit`, and `1` for a promise rejection nothing handles. -/
def exitStatus : Outcome → Nat
  | Outcome.completed => 0
  | Outcome.exited code => code
  | Outcome.rejected => 1

/-- The strings written to standard output. -/
def stdout (t : List Event) : List JSString :=
  t.filterMap fun e =>
    match e with
    | Event.consoleLog text => some text
    | _ => none

/-- The strings written to standard error by the script. -/
def stderr (t : List Event) : List JSString :=
  t.filterMap fun e =>
    match e with
    | Event.consoleError text => some text
    | _ => none

/-- The screenshot calls of a trace, with their arguments. -/
def screenshots (t : List Event) : List ScreenshotOptions :=
  t.filterMap fun e =>
    match e with
    | Event.screenshot options => some options
    | _ => none

/-- The screenshot calls of a trace that succeeded: the images captured. -/
def captured (w : World) (t : List Event) : List ScreenshotOptions :=
  (screenshots t).filter w.screenshot

/-- A world in which every library call succeeds and the page is `html`. -/
def allSucceed (html : JSString) : World :=
  { lowerNonAscii := keepNonAscii
    launch := true
    newPage := true
    goto := fun _ _ => true
    screenshot := fun _ => true
    content := some html
    close := true }

/-- The argument vector `node render.js args...`. -/
def argvOf (args : List String) : List JSString :=
  "node".toList :: "render.js".toList :: args.map String.toList

/-! ## Notions used to state the properties -/

/-- The output path ends in `suffix` when letter case is ignored.  Only ASCII
letters matter here: no character outside ASCII has a case variant among the
letters of `.jpg`, `.jpeg`, `.png`, `.webp`. -/
def endsWithIgnoringCase (suffix path : JSString) : Prop :=
  suffix <:+ path.map asciiLower

instance (suffix path : JSString) : Decidable (endsWithIgnoringCase suffix path) :=
  inferInstanceAs (Decidable (suffix <:+ path.map asciiLower))

/-- The recognised endings of an output path, each with the image type expected for it. -/
def expectedTypes : List (JSString × JSString) :=
  [(".jpg".toList, "jpeg".toList), (".jpeg".toList, "jpeg".toList),
   (".png".toList, "png".toList), (".webp".toList, "webp".toList)]

/-- The image types the capture call accepts. -/
def captureTypes : List JSString :=
  ["png".toList, "jpeg".toList, "webp".toList]

/-- The final segment of a path: what follows its last `/`. -/
def finalSegment (path : JSString) : Option JSString :=
  pop (split '/' path)

/-- The path has no extension: its final segment contains no `.`. -/
def hasNoExtension (path : JSString) : Bool :=
  match finalSegment path with
  | some seg => !seg.contains '.'
  | none => true

/-- The run that reports the usage error. -/
def usageError : Run :=
  { trace := [Event.consoleError noUrlMessage, Event.processExit 1]
    outcome := Outcome.exited 1 }

/-- The events that use the browser library. -/
def isBrowserCall : Event → Bool
  | Event.launch => true
  | Event.newPage => true
  | Event.goto _ _ => true
  | Event.screenshot _ => true
  | Event.content => true
  | Event.close => true
  | Event.consoleError _ => false
  | Event.consoleLog _ => false
  | Event.processExit _ => false

/-- Page creation, navigation, the screenshot call of the run (when there is
one) and content extraction all succeed. -/
def laterStepsSucceed (w : World) (argv : List JSString) (u : JSString) : Bool :=
  w.newPage && w.goto u networkidle && (screenshots (run w argv).trace).all w.screenshot
    && w.content.isSome

/-- A sample page. -/
def pageHtml : JSString := "<html></html>".toList

/-- A world in which the browser starts and the page cannot be created. -/
def newPageFails : World :=
  { allSucceed pageHtml with newPage := false }

/-- A world in which every call succeeds except the navigation. -/
def gotoFails : World :=
  { allSucceed pageHtml with goto := fun _ _ => false }

/-- A world in which every call succeeds except the content extraction. -/
def contentFails : World :=
  { allSucceed pageHtml with content := none }

/-- The lower-case letters `a`..`z`. -/
def isLowerLetter (c : Char) : Bool :=
  decide (97 ≤ c.toNat ∧ c.toNat ≤ 122)

/-- The end of a run that reached content extraction, used to state the
lemmas below: extraction, printing and closing. -/
def finish (w : World) : Run :=
  match w.content with
  | none => { trace := [Event.content], outcome := Outcome.rejected }
  | some html =>
    { trace := [Event.content, Event.consoleLog html, Event.close]
      outcome := if w.close then Outcome.completed else Outcome.rejected }

/-- A world in which every call succeeds except the final close. -/
def closeFails : World :=
  { allSucceed pageHtml with close := false }

/-- The URL of the sample invocations. -/
def sampleUrl : JSString := "https://example.org".toList

/-- The sample invocation `node render.js`, without arguments. -/
def argvNone : List JSString := argvOf []

/-- The sample invocation `node render.js https://example.org`. -/
def argvUrlOnly : List JSString := argvOf ["https://example.org"]

/-- The sample invocation `node render.js https://example.org shots/Home.JPG`. -/
def argvWithJpg : List JSString := argvOf ["https://example.org", "shots/Home.JPG"]

/-- The sample invocation `node render.js https://example.org page.png`. -/
def argvWithPng : List JSString := argvOf ["https://example.org", "page.png"]

/-- The sample invocation `node render.js https://example.org jpg`. -/
def argvBareJpg : List JSString := argvOf ["https://example.org", "jpg"]

/-! ## Facts about the string primitives -/

theorem split_ne_nil (sep : Char) (s : JSString) : split sep s ≠ [] := by
  induction s with
  | nil => simp [split]
  | cons c cs ih =>
    unfold split
    split
    · simp
    · cases h : split sep cs with
      | nil => exact absurd h ih
      | cons seg segs => simp

theorem split_of_not_mem (sep : Char) (s : JSString) (h : sep ∉ s) : split sep s = [s] := by
  induction s with
  | nil => rfl
  | cons c cs ih =>
    have hc : c ≠ sep := fun e => h (by simp [e])
    have hcs : sep ∉ cs := fun e => h (List.mem_cons_of_mem _ e)
    simp [split, hc, ih hcs]

theorem split_append_sep (sep : Char) (pre ext : JSString) (h : sep ∉ ext) :
    ∃ init, init ≠ [] ∧ split sep (pre ++ sep :: ext) = init ++ [ext] := by
  induction pre with
  | nil => exact ⟨[[]], by simp, by simp [split, split_of_not_mem sep ext h]⟩
  | cons c cs ih =>
    obtain ⟨init, hne, hinit⟩ := ih
    by_cases hc : c = sep
    · exact ⟨[] :: init, by simp, by simp [split, hc, ← hinit]⟩
    · cases init with
      | nil => exact absurd rfl hne
      | cons seg segs =>
        exact ⟨(c :: seg) :: segs, by simp, by simp [split, hc, hinit]⟩

theorem pop_split_append_sep (sep : Char) (pre ext : JSString) (h : sep ∉ ext) :
    pop (split sep (pre ++ sep :: ext)) = some ext := by
  obtain ⟨init, _, hinit⟩ := split_append_sep sep pre ext h
  simp [pop, hinit]

theorem toLowerCaseFrom_ascii (u : NonAsciiLower) (s before : JSString)
    (h : ∀ c ∈ s, c.toNat < 128) : toLowerCaseFrom u before s = s.map asciiLower := by
  induction s generalizing before with
  | nil => rfl
  | cons c cs ih =>
    have hc : c.toNat < 128 := h c (by simp)
    have hcs : ∀ d ∈ cs, d.toNat < 128 := fun d hd => h d (List.mem_cons_of_mem _ hd)
    simp [toLowerCaseFrom, lowerAt, hc, ih _ hcs]

theorem asciiLower_eq_dot (c : Char) (h : asciiLower c = '.') : c = '.' := by
  unfold asciiLower at h
  split at h
  · rename_i hc
    obtain ⟨h1, h2⟩ := hc
    generalize c.toNat = n at h h1 h2
    interval_cases n <;> exact absurd h (by decide)
  · exact h

theorem asciiLower_letter (c x : Char) (h : asciiLower c = x)
    (hx : 97 ≤ x.toNat ∧ x.toNat ≤ 122) : c.toNat < 128 ∧ c ≠ '.' := by
  unfold asciiLower at h
  split at h
  · rename_i hc
    refine ⟨by omega, ?_⟩
    rintro rfl
    revert hc
    decide
  · subst h
    refine ⟨by omega, ?_⟩
    rintro rfl
    revert hx
    decide

theorem fileExtension_of_suffix (u : NonAsciiLower) (path name : JSString)
    (hname : ∀ c ∈ name, isLowerLetter c = true)
    (h : ('.' :: name) <:+ path.map asciiLower) : fileExtension u path = some name := by
  obtain ⟨t, ht⟩ := h
  obtain ⟨pre, rest, hpath, -, hrest⟩ := List.map_eq_append_iff.mp ht.symm
  cases rest with
  | nil => simp at hrest
  | cons d ext =>
    simp only [List.map_cons, List.cons.injEq] at hrest
    obtain ⟨hd, hext⟩ := hrest
    have hdot : d = '.' := asciiLower_eq_dot d hd
    have hall : ∀ c ∈ ext, c.toNat < 128 ∧ c ≠ '.' := by
      intro c hc
      have hmem : asciiLower c ∈ name := hext ▸ List.mem_map_of_mem asciiLower hc
      have hl := hname _ hmem
      simp only [isLowerLetter, decide_eq_true_eq] at hl
      exact asciiLower_letter c _ rfl hl
    have hnodot : '.' ∉ ext := fun hm => (hall _ hm).2 rfl
    subst hdot
    subst hpath
    rw [fileExtension, pop_split_append_sep '.' pre ext hnodot]
    simp only [Option.map_some', toLowerCase]
    rw [toLowerCaseFrom_ascii u ext [] (fun c hc => (hall c hc).1), hext]

/-! ## Screenshot type inference -/

/-- C1: an output path that ends, ignoring letter case, in `.jpg`, `.jpeg`,
`.png` or `.webp` makes the script pass the image type jpeg, jpeg, png, webp
respectively to the screenshot call, together with the path itself. -/
theorem format_of_recognised_extension (u : NonAsciiLower) (path suffix type : JSString)
    (hmem : (suffix, type) ∈ expectedTypes) (h : endsWithIgnoringCase suffix path) :
    screenshotOptions u path = some { path := path, fullPage := true, type := type } := by
  simp only [expectedTypes, List.mem_cons, Prod.mk.injEq, List.mem_singleton,
    List.not_mem_nil, or_false] at hmem
  rcases hmem with ⟨rfl, rfl⟩ | ⟨rfl, rfl⟩ | ⟨rfl, rfl⟩ | ⟨rfl, rfl⟩
  · rw [screenshotOptions, fileExtension_of_suffix u path "jpg".toList (by decide) h]
    have ht : playwrightType (typeOfExtension "jpg".toList) = "jpeg".toList := by decide
    simp only [Option.map_some', ht]
  · rw [screenshotOptions, fileExtension_of_suffix u path "jpeg".toList (by decide) h]
    have ht : playwrightType (typeOfExtension "jpeg".toList) = "jpeg".toList := by decide
    simp only [Option.map_some', ht]
  · rw [screenshotOptions, fileExtension_of_suffix u path "png".toList (by decide) h]
    have ht : playwrightType (typeOfExtension "png".toList) = "png".toList := by decide
    simp only [Option.map_some', ht]
  · rw [screenshotOptions, fileExtension_of_suffix u path "webp".toList (by decide) h]
    have ht : playwrightType (typeOfExtension "webp".toList) = "webp".toList := by decide
    simp only [Option.map_some', ht]

theorem format_of_recognised_extension_witness :
    screenshotOptions keepNonAscii "shots/Home.JPG".toList
      = some { path := "shots/Home.JPG".toList, fullPage := true, type := "jpeg".toList } :=
  format_of_recognised_extension keepNonAscii "shots/Home.JPG".toList ".jpg".toList "jpeg".toList
    (by decide) (by decide)

theorem typeOfExtension_mem (ext : JSString) :
    playwrightType (typeOfExtension ext) ∈ captureTypes := by
  unfold typeOfExtension
  split
  · rename_i hin
    simp only [includes, List.contains_iff_exists_mem_beq, beq_iff_eq, List.mem_cons,
      List.mem_singleton, List.not_mem_nil, or_false, exists_eq_or_imp, exists_eq_left] at hin
    rcases hin with h | h | h | h <;> subst h <;> decide
  · decide

theorem screenshotOptions_eq (u : NonAsciiLower) (path : JSString) :
    ∃ type, screenshotOptions u path = some { path := path, fullPage := true, type := type }
      ∧ type ∈ captureTypes := by
  cases hp : pop (split '.' path) with
  | none =>
    exact absurd (List.getLast?_eq_none_iff.mp hp) (split_ne_nil '.' path)
  | some seg =>
    exact ⟨playwrightType (typeOfExtension (toLowerCase u seg)),
      by simp [screenshotOptions, fileExtension, hp], typeOfExtension_mem _⟩

/-- C9: for every output path the screenshot options are defined (no call on
`undefined`), and the image type in them is one of png, jpeg, webp; it is
never `jpg`. -/
theorem format_tag_always_valid (u : NonAsciiLower) (path : JSString) :
    ∃ options, screenshotOptions u path = some options ∧ options.path = path
      ∧ options.type ∈ captureTypes ∧ options.type ≠ "jpg".toList := by
  obtain ⟨type, ho, hmem⟩ := screenshotOptions_eq u path
  refine ⟨_, ho, rfl, hmem, ?_⟩
  intro hj
  simp only at hj
  rw [hj] at hmem
  exact absurd hmem (by decide)

/-! ## Where the default format does hold -/

theorem exists_last_occurrence (c : Char) (s : JSString) (h : c ∈ s) :
    ∃ pre ext, s = pre ++ c :: ext ∧ c ∉ ext := by
  induction s with
  | nil => simp at h
  | cons d t ih =>
    by_cases ht : c ∈ t
    · obtain ⟨pre, ext, hs, hn⟩ := ih ht
      exact ⟨d :: pre, ext, by rw [hs]; rfl, hn⟩
    · have hd : c = d := by
        rcases List.mem_cons.mp h with hd | hd
        · exact hd
        · exact absurd hd ht
      exact ⟨[], t, by rw [hd]; rfl, ht⟩

theorem pop_split_append (sep : Char) (a b : JSString) (h : sep ∉ b) :
    ∃ seg, pop (split sep (a ++ b)) = some (seg ++ b) := by
  induction a with
  | nil => exact ⟨[], by simp [pop, split_of_not_mem sep b h]⟩
  | cons c cs ih =>
    obtain ⟨seg, hseg⟩ := ih
    cases hsp : split sep (cs ++ b) with
    | nil => exact absurd hsp (split_ne_nil sep (cs ++ b))
    | cons s0 segs =>
      rw [hsp] at hseg
      by_cases hc : c = sep
      · have he : split sep (c :: (cs ++ b)) = [] :: s0 :: segs := by
          simp [split, hc, hsp]
        refine ⟨seg, ?_⟩
        rw [List.cons_append, he]
        simp only [pop] at hseg ⊢
        rw [List.getLast?_cons_cons]
        exact hseg
      · have he : split sep (c :: (cs ++ b)) = (c :: s0) :: segs := by
          simp [split, hc, hsp]
        rw [List.cons_append, he]
        cases segs with
        | nil =>
          refine ⟨c :: seg, ?_⟩
          simp only [pop, List.getLast?_singleton, Option.some.injEq] at hseg
          simp [pop, hseg]
        | cons s1 rest =>
          refine ⟨seg, ?_⟩
          simp only [pop] at hseg ⊢
          rw [List.getLast?_cons_cons] at hseg ⊢
          exact hseg

theorem slash_mem_toLowerCaseFrom (u : NonAsciiLower) (s before : JSString) (h : '/' ∈ s) :
    '/' ∈ toLowerCaseFrom u before s := by
  induction s generalizing before with
  | nil => simp at h
  | cons c cs ih =>
    rcases List.mem_cons.mp h with hc | hc
    · subst hc
      have hl : lowerAt u before '/' cs = ['/'] := by
        simp only [lowerAt]
        rfl
      simp [toLowerCaseFrom, hl]
    · simp only [toLowerCaseFrom, List.mem_append]
      exact Or.inr (ih _ hc)

theorem typeOfExtension_default (ext : JSString)
    (h : ext ∉ ["jpeg".toList, "jpg".toList, "webp".toList]) :
    playwrightType (typeOfExtension ext) = "png".toList := by
  unfold typeOfExtension
  split
  · rename_i hin
    simp only [includes, List.contains_iff_exists_mem_beq, beq_iff_eq, List.mem_cons,
      List.mem_singleton, List.not_mem_nil, or_false, exists_eq_or_imp, exists_eq_left] at hin
    rcases hin with h1 | h1 | h1 | h1
    · subst h1; decide
    · subst h1; exact absurd (by decide) h
    · subst h1; exact absurd (by decide) h
    · subst h1; exact absurd (by decide) h
  · decide

/-- An output path with a dot whose text after the last dot is, in lower case,
none of jpeg, jpg, webp is captured as png. -/
theorem default_format_of_other_extension (u : NonAsciiLower) (pre ext : JSString)
    (hdot : '.' ∉ ext)
    (hext : toLowerCase u ext ∉ ["jpeg".toList, "jpg".toList, "webp".toList]) :
    screenshotOptions u (pre ++ '.' :: ext)
      = some { path := pre ++ '.' :: ext, fullPage := true, type := "png".toList } := by
  rw [screenshotOptions, fileExtension, pop_split_append_sep '.' pre ext hdot]
  simp only [Option.map_some', typeOfExtension_default _ hext]

/-- An output path without extension is captured as png, unless it has no dot
at all and is, in lower case, one of the bare names jpeg, jpg, webp. -/
theorem default_format_without_extension (u : NonAsciiLower) (path : JSString)
    (h : hasNoExtension path = true)
    (hbare : '.' ∈ path ∨ toLowerCase u path ∉ ["jpeg".toList, "jpg".toList, "webp".toList]) :
    screenshotOptions u path
      = some { path := path, fullPage := true, type := "png".toList } := by
  by_cases hd : '.' ∈ path
  · obtain ⟨pre, ext, hp, hn⟩ := exists_last_occurrence '.' path hd
    subst hp
    have hslash : '/' ∈ ext := by
      by_contra hns
      have hb : '/' ∉ '.' :: ext := by
        intro hm
        rcases List.mem_cons.mp hm with h1 | h1
        · exact absurd h1 (by decide)
        · exact hns h1
      obtain ⟨seg, hseg⟩ := pop_split_append '/' pre ('.' :: ext) hb
      simp [hasNoExtension, finalSegment, hseg] at h
    apply default_format_of_other_extension u pre ext hn
    intro hm
    have hsl : '/' ∈ toLowerCase u ext := slash_mem_toLowerCaseFrom u ext [] hslash
    simp only [List.mem_cons, List.mem_singleton, List.not_mem_nil, or_false] at hm
    rcases hm with h1 | h1 | h1 <;> rw [h1] at hsl <;> exact absurd hsl (by decide)
  · have hb := hbare.resolve_left hd
    rw [screenshotOptions, fileExtension, split_of_not_mem '.' path hd]
    simp only [pop, List.getLast?_singleton, Option.map_some', typeOfExtension_default _ hb]

/-- C2 fails on the code at the output path `jpg`: the path is not empty and
has no extension, and the image type passed to the screenshot call is jpeg, not
png, because the whole path is taken for its extension when it has no dot. -/
theorem bare_jpg_is_captured_as_jpeg (u : NonAsciiLower) :
    hasNoExtension "jpg".toList = true
      ∧ screenshotOptions u "jpg".toList
          = some { path := "jpg".toList, fullPage := true, type := "jpeg".toList }
      ∧ screenshots (run (allSucceed pageHtml) argvBareJpg).trace
          = [{ path := "jpg".toList, fullPage := true, type := "jpeg".toList }] :=
  ⟨by decide, rfl, by decide⟩

/-! ## Runs of the script -/

theorem bind_eq {α β : Type} (m : Script α) (f : α → Script β) :
    m >>= f = Script.bind m f := rfl

theorem pure_eq {α : Type} (a : α) : (pure a : Script α) = ([], Except.ok a) := rfl

theorem bind_ok {α β : Type} (t : List Event) (a : α) (f : α → Script β) :
    Script.bind (t, Except.ok a) f = (t ++ (f a).1, (f a).2) := rfl

theorem bind_error {α β : Type} (t : List Event) (e : Stop) (f : α → Script β) :
    Script.bind ((t, Except.error e) : Script α) f = (t, Except.error e) := rfl

theorem await_true (e : Event) : await e (resolved true) = ([e], Except.ok ()) := rfl

theorem await_false (e : Event) :
    await e (resolved false) = (([e], Except.error Stop.reject) : Script Unit) := rfl

theorem await_some {α : Type} (e : Event) (a : α) : await e (some a) = ([e], Except.ok a) := rfl

theorem await_none {α : Type} (e : Event) :
    await e (none : Option α) = ([e], Except.error Stop.reject) := rfl

theorem truthy_some {u : JSString} (h : u ≠ []) : truthy (some u) = true := by
  cases u with
  | nil => exact absurd rfl h
  | cons c cs => rfl

theorem render_falsy (w : World) (url screenshotPath : Option JSString)
    (h : truthy url = false) : observe (render w url screenshotPath) = usageError := by
  simp [render, h, bind_eq, bind_ok, bind_error, consoleError, processExit, observe, usageError]

/-- C3: when the URL argument is absent the run is the usage error: one
diagnostic on standard error, `process.exit(1)`, no call to the browser library
and nothing on standard output. -/
theorem missing_url (w : World) (argv : List JSString) (h : argv[2]? = none) :
    run w argv = usageError
      ∧ stderr (run w argv).trace = [noUrlMessage]
      ∧ exitStatus (run w argv).outcome = 1
      ∧ (run w argv).trace.all (fun e => !isBrowserCall e) = true
      ∧ stdout (run w argv).trace = [] := by
  have hr : run w argv = usageError := by
    unfold run main
    rw [h]
    exact render_falsy w none _ rfl
  rw [hr]
  exact ⟨rfl, by decide, by decide, by decide, by decide⟩

theorem missing_url_witness :
    run (allSucceed pageHtml) argvNone = usageError
      ∧ stderr (run (allSucceed pageHtml) argvNone).trace = [noUrlMessage]
      ∧ exitStatus (run (allSucceed pageHtml) argvNone).outcome = 1
      ∧ (run (allSucceed pageHtml) argvNone).trace.all
          (fun e => !isBrowserCall e) = true
      ∧ stdout (run (allSucceed pageHtml) argvNone).trace = [] :=
  missing_url (allSucceed pageHtml) argvNone (by decide)

/-- C6: when the URL is non-empty, the browser and the page are obtained and
the navigation fails, the run is rejected (exit status not zero) right after
the navigation call: no content extraction, no screenshot call, nothing on
standard output. -/
theorem navigation_failure (w : World) (argv : List JSString) (u : JSString)
    (hu : argv[2]? = some u) (hne : u ≠ []) (hl : w.launch = true) (hn : w.newPage = true)
    (hg : w.goto u networkidle = false) :
    run w argv = { trace := [Event.launch, Event.newPage, Event.goto u networkidle]
                   outcome := Outcome.rejected }
      ∧ exitStatus (run w argv).outcome ≠ 0
      ∧ Event.content ∉ (run w argv).trace
      ∧ screenshots (run w argv).trace = []
      ∧ stdout (run w argv).trace = [] := by
  have hr : run w argv = { trace := [Event.launch, Event.newPage, Event.goto u networkidle]
                           outcome := Outcome.rejected } := by
    simp [run, main, render, hu, truthy_some hne, hl, hn, hg, bind_eq, pure_eq, bind_ok,
      bind_error, await_true, await_false, observe, asString]
  rw [hr]
  simp [exitStatus, screenshots, stdout]

theorem navigation_failure_witness :
    run gotoFails argvWithPng
        = { trace := [Event.launch, Event.newPage, Event.goto sampleUrl networkidle]
            outcome := Outcome.rejected }
      ∧ exitStatus (run gotoFails argvWithPng).outcome ≠ 0
      ∧ Event.content ∉ (run gotoFails argvWithPng).trace
      ∧ screenshots (run gotoFails argvWithPng).trace = []
      ∧ stdout (run gotoFails argvWithPng).trace = [] :=
  navigation_failure gotoFails argvWithPng sampleUrl (by decide) (by decide) rfl rfl rfl

theorem render_launch_fails (w : World) (u : JSString) (path : Option JSString) (hne : u ≠ [])
    (hl : w.launch = false) :
    observe (render w (some u) path) = { trace := [Event.launch], outcome := Outcome.rejected } := by
  simp [render, truthy_some hne, hl, bind_eq, pure_eq, bind_ok, bind_error, await_false, observe]

theorem render_newPage_fails (w : World) (u : JSString) (path : Option JSString) (hne : u ≠ [])
    (hl : w.launch = true) (hn : w.newPage = false) :
    observe (render w (some u) path)
      = { trace := [Event.launch, Event.newPage], outcome := Outcome.rejected } := by
  simp [render, truthy_some hne, hl, hn, bind_eq, pure_eq, bind_ok, bind_error, await_true,
    await_false, observe]

theorem render_goto_fails (w : World) (u : JSString) (path : Option JSString) (hne : u ≠ [])
    (hl : w.launch = true) (hn : w.newPage = true) (hg : w.goto u networkidle = false) :
    observe (render w (some u) path)
      = { trace := [Event.launch, Event.newPage, Event.goto u networkidle]
          outcome := Outcome.rejected } := by
  simp [render, truthy_some hne, hl, hn, hg, bind_eq, pure_eq, bind_ok, bind_error, await_true,
    await_false, observe, asString]

theorem render_without_path (w : World) (u : JSString) (path : Option JSString) (hne : u ≠ [])
    (hl : w.launch = true) (hn : w.newPage = true) (hg : w.goto u networkidle = true)
    (hp : truthy path = false) :
    observe (render w (some u) path)
      = { trace := [Event.launch, Event.newPage, Event.goto u networkidle] ++ (finish w).trace
          outcome := (finish w).outcome } := by
  cases hc : w.content with
  | none =>
    simp [render, truthy_some hne, hl, hn, hg, hp, hc, bind_eq, pure_eq, bind_ok, bind_error,
      await_true, await_none, observe, asString, finish]
  | some html =>
    cases hx : w.close <;>
    simp [render, truthy_some hne, hl, hn, hg, hp, hc, hx, bind_eq, pure_eq, bind_ok, bind_error,
      await_true, await_false, await_some, observe, asString, finish, consoleLog]

theorem render_capture_fails (w : World) (u p : JSString) (options : ScreenshotOptions)
    (hne : u ≠ []) (hl : w.launch = true) (hn : w.newPage = true)
    (hg : w.goto u networkidle = true) (hp : p ≠ [])
    (ho : screenshotOptions w.lowerNonAscii p = some options)
    (hs : w.screenshot options = false) :
    observe (render w (some u) (some p))
      = { trace := [Event.launch, Event.newPage, Event.goto u networkidle,
            Event.screenshot options]
          outcome := Outcome.rejected } := by
  simp [render, truthy_some hne, truthy_some hp, hl, hn, hg, ho, hs, bind_eq, pure_eq, bind_ok,
    bind_error, await_true, await_false, observe, asString]

theorem render_with_capture (w : World) (u p : JSString) (options : ScreenshotOptions)
    (hne : u ≠ []) (hl : w.launch = true) (hn : w.newPage = true)
    (hg : w.goto u networkidle = true) (hp : p ≠ [])
    (ho : screenshotOptions w.lowerNonAscii p = some options)
    (hs : w.screenshot options = true) :
    observe (render w (some u) (some p))
      = { trace := [Event.launch, Event.newPage, Event.goto u networkidle,
            Event.screenshot options] ++ (finish w).trace
          outcome := (finish w).outcome } := by
  cases hc : w.content with
  | none =>
    simp [render, truthy_some hne, truthy_some hp, hl, hn, hg, ho, hs, hc, bind_eq, pure_eq,
      bind_ok, bind_error, await_true, await_none, observe, asString, finish]
  | some html =>
    cases hx : w.close <;>
    simp [render, truthy_some hne, truthy_some hp, hl, hn, hg, ho, hs, hc, hx, bind_eq, pure_eq,
      bind_ok, bind_error, await_true, await_false, await_some, observe, asString, finish,
      consoleLog]

theorem run_eq (w : World) (argv : List JSString) :
    run w argv = observe (render w argv[2]? argv[3]?) := rfl

theorem render_empty_path (w : World) (url : Option JSString) :
    render w url (some []) = render w url none := by
  simp [render, truthy]

/-- C5: with a non-empty URL `u` and every library call of the run succeeding,
the events of the run are exactly: launch, new page, navigation to `u` waiting
for network idle, one screenshot when a non-empty output path is given and none
otherwise, content extraction, the extracted HTML on standard output, close.
The browser is launched once and closed once, and standard output receives
exactly the extracted string. -/
theorem successful_run_sequence (w : World) (argv : List JSString) (u html : JSString)
    (hu : argv[2]? = some u) (hne : u ≠ []) (hl : w.launch = true) (hn : w.newPage = true)
    (hg : w.goto u networkidle = true)
    (hs : ∀ options, Event.screenshot options ∈ (run w argv).trace → w.screenshot options = true)
    (hc : w.content = some html) (hx : w.close = true) :
    (∃ shots,
        run w argv =
          { trace := [Event.launch, Event.newPage, Event.goto u networkidle] ++ shots
              ++ [Event.content, Event.consoleLog html, Event.close]
            outcome := Outcome.completed }
        ∧ (truthy argv[3]? = false → shots = [])
        ∧ (∀ p, argv[3]? = some p → p ≠ [] →
            ∃ options, screenshotOptions w.lowerNonAscii p = some options
              ∧ shots = [Event.screenshot options]))
      ∧ (run w argv).trace.count Event.launch = 1
      ∧ (run w argv).trace.count Event.close = 1
      ∧ stdout (run w argv).trace = [html] := by
  have hfin : finish w = { trace := [Event.content, Event.consoleLog html, Event.close]
                           outcome := Outcome.completed } := by
    simp [finish, hc, hx]
  by_cases hp : truthy argv[3]? = true
  · cases h3 : argv[3]? with
    | none => rw [h3] at hp; exact absurd hp (by decide)
    | some p =>
      have hpne : p ≠ [] := by
        rintro rfl
        rw [h3] at hp
        exact absurd hp (by decide)
      obtain ⟨type, ho, -⟩ := screenshotOptions_eq w.lowerNonAscii p
      have hso : w.screenshot { path := p, fullPage := true, type := type } = true := by
        apply hs
        cases hw : w.screenshot { path := p, fullPage := true, type := type } with
        | true =>
          rw [run_eq, hu, h3, render_with_capture w u p _ hne hl hn hg hpne ho hw]
          simp
        | false =>
          rw [run_eq, hu, h3, render_capture_fails w u p _ hne hl hn hg hpne ho hw]
          simp
      have hr : run w argv =
          { trace := [Event.launch, Event.newPage, Event.goto u networkidle]
              ++ [Event.screenshot { path := p, fullPage := true, type := type }]
              ++ [Event.content, Event.consoleLog html, Event.close]
            outcome := Outcome.completed } := by
        rw [run_eq, hu, h3, render_with_capture w u p _ hne hl hn hg hpne ho hso, hfin]
        simp
      refine ⟨⟨_, hr, ?_, ?_⟩, ?_, ?_, ?_⟩
      · intro hf
        rw [truthy_some hpne] at hf
        exact absurd hf (by decide)
      · intro q hq _
        cases hq
        exact ⟨_, ho, rfl⟩
      · rw [hr]; simp [List.count_cons]
      · rw [hr]; simp [List.count_cons]
      · rw [hr]; simp [stdout]
  · have hpf : truthy argv[3]? = false := by simpa using hp
    have hr : run w argv =
        { trace := [Event.launch, Event.newPage, Event.goto u networkidle] ++ []
            ++ [Event.content, Event.consoleLog html, Event.close]
          outcome := Outcome.completed } := by
      rw [run_eq, hu, render_without_path w u _ hne hl hn hg hpf, hfin]
      simp
    refine ⟨⟨_, hr, fun _ => rfl, ?_⟩, ?_, ?_, ?_⟩
    · intro p hp3 hpne
      rw [hp3, truthy_some hpne] at hpf
      exact absurd hpf (by decide)
    · rw [hr]; simp [List.count_cons]
    · rw [hr]; simp [List.count_cons]
    · rw [hr]; simp [stdout]

theorem successful_run_sequence_witness :
    (∃ shots,
        run (allSucceed pageHtml) argvWithJpg =
          { trace := [Event.launch, Event.newPage, Event.goto sampleUrl networkidle] ++ shots
              ++ [Event.content, Event.consoleLog pageHtml, Event.close]
            outcome := Outcome.completed }
        ∧ (truthy argvWithJpg[3]? = false → shots = [])
        ∧ (∀ p, argvWithJpg[3]? = some p → p ≠ [] →
            ∃ options, screenshotOptions (allSucceed pageHtml).lowerNonAscii p = some options
              ∧ shots = [Event.screenshot options]))
      ∧ (run (allSucceed pageHtml) argvWithJpg).trace.count Event.launch = 1
      ∧ (run (allSucceed pageHtml) argvWithJpg).trace.count Event.close = 1
      ∧ stdout (run (allSucceed pageHtml) argvWithJpg).trace = [pageHtml] :=
  successful_run_sequence (allSucceed pageHtml) argvWithJpg sampleUrl pageHtml
    (by decide) (by decide) rfl rfl rfl (fun _ _ => rfl) rfl rfl

theorem finish_cases (w : World) :
    (w.content = none
        ∧ finish w = { trace := [Event.content], outcome := Outcome.rejected })
      ∨ (∃ html, w.content = some html ∧ w.close = false
          ∧ finish w = { trace := [Event.content, Event.consoleLog html, Event.close]
                         outcome := Outcome.rejected })
      ∨ (∃ html, w.content = some html ∧ w.close = true
          ∧ finish w = { trace := [Event.content, Event.consoleLog html, Event.close]
                         outcome := Outcome.completed }) := by
  cases hc : w.content with
  | none => exact Or.inl ⟨rfl, by simp [finish, hc]⟩
  | some html =>
    cases hx : w.close with
    | false => exact Or.inr (Or.inl ⟨html, rfl, rfl, by simp [finish, hc, hx]⟩)
    | true => exact Or.inr (Or.inr ⟨html, rfl, rfl, by simp [finish, hc, hx]⟩)

theorem run_cases (w : World) (argv : List JSString) (u : JSString)
    (hu : argv[2]? = some u) (hne : u ≠ []) :
    (w.launch = false
        ∧ run w argv = { trace := [Event.launch], outcome := Outcome.rejected })
      ∨ (w.launch = true ∧ w.newPage = false
          ∧ run w argv = { trace := [Event.launch, Event.newPage], outcome := Outcome.rejected })
      ∨ (w.launch = true ∧ w.newPage = true ∧ w.goto u networkidle = false
          ∧ run w argv = { trace := [Event.launch, Event.newPage, Event.goto u networkidle]
                           outcome := Outcome.rejected })
      ∨ (w.launch = true ∧ w.newPage = true ∧ w.goto u networkidle = true
          ∧ truthy argv[3]? = false
          ∧ run w argv =
              { trace := [Event.launch, Event.newPage, Event.goto u networkidle]
                  ++ (finish w).trace
                outcome := (finish w).outcome })
      ∨ (∃ p type, argv[3]? = some p ∧ p ≠ [] ∧ type ∈ captureTypes
          ∧ screenshotOptions w.lowerNonAscii p
              = some { path := p, fullPage := true, type := type }
          ∧ w.launch = true ∧ w.newPage = true ∧ w.goto u networkidle = true
          ∧ w.screenshot { path := p, fullPage := true, type := type } = false
          ∧ run w argv =
              { trace := [Event.launch, Event.newPage, Event.goto u networkidle,
                  Event.screenshot { path := p, fullPage := true, type := type }]
                outcome := Outcome.rejected })
      ∨ (∃ p type, argv[3]? = some p ∧ p ≠ [] ∧ type ∈ captureTypes
          ∧ screenshotOptions w.lowerNonAscii p
              = some { path := p, fullPage := true, type := type }
          ∧ w.launch = true ∧ w.newPage = true ∧ w.goto u networkidle = true
          ∧ w.screenshot { path := p, fullPage := true, type := type } = true
          ∧ run w argv =
              { trace := [Event.launch, Event.newPage, Event.goto u networkidle,
                  Event.screenshot { path := p, fullPage := true, type := type }]
                  ++ (finish w).trace
                outcome := (finish w).outcome }) := by
  rw [run_eq, hu]
  cases hl : w.launch with
  | false => exact Or.inl ⟨rfl, render_launch_fails w u _ hne hl⟩
  | true =>
    cases hn : w.newPage with
    | false => exact Or.inr (Or.inl ⟨rfl, rfl, render_newPage_fails w u _ hne hl hn⟩)
    | true =>
      cases hg : w.goto u networkidle with
      | false =>
        exact Or.inr (Or.inr (Or.inl ⟨rfl, rfl, rfl, render_goto_fails w u _ hne hl hn hg⟩))
      | true =>
        cases hp : truthy argv[3]? with
        | false =>
          exact Or.inr (Or.inr (Or.inr (Or.inl
            ⟨rfl, rfl, rfl, rfl, render_without_path w u _ hne hl hn hg hp⟩)))
        | true =>
          cases h3 : argv[3]? with
          | none => rw [h3] at hp; exact absurd hp (by decide)
          | some p =>
            have hpne : p ≠ [] := by
              rintro rfl
              rw [h3] at hp
              exact absurd hp (by decide)
            obtain ⟨type, ho, hmem⟩ := screenshotOptions_eq w.lowerNonAscii p
            cases hs : w.screenshot { path := p, fullPage := true, type := type } with
            | false =>
              exact Or.inr (Or.inr (Or.inr (Or.inr (Or.inl
                ⟨p, type, rfl, hpne, hmem, ho, rfl, rfl, rfl, hs,
                  render_capture_fails w u p _ hne hl hn hg hpne ho hs⟩))))
            | true =>
              exact Or.inr (Or.inr (Or.inr (Or.inr (Or.inr
                ⟨p, type, rfl, hpne, hmem, ho, rfl, rfl, rfl, hs,
                  render_with_capture w u p _ hne hl hn hg hpne ho hs⟩))))

/-- C7: with a non-empty URL and every library call of the run succeeding,
no screenshot call is made when no output path is given, exactly one is made
when a non-empty output path `p` is given, with path `p` and the full page
asked for, and the page HTML is printed on standard output in both cases. -/
theorem capture_exactly_when_asked (w : World) (argv : List JSString) (u html : JSString)
    (hu : argv[2]? = some u) (hne : u ≠ []) (hl : w.launch = true) (hn : w.newPage = true)
    (hg : w.goto u networkidle = true)
    (hs : ∀ options, Event.screenshot options ∈ (run w argv).trace → w.screenshot options = true)
    (hc : w.content = some html) (hx : w.close = true) :
    (argv[3]? = none →
        screenshots (run w argv).trace = [] ∧ captured w (run w argv).trace = [])
      ∧ (∀ p, argv[3]? = some p → p ≠ [] →
          ∃ type, type ∈ captureTypes
            ∧ screenshots (run w argv).trace = [{ path := p, fullPage := true, type := type }]
            ∧ captured w (run w argv).trace = [{ path := p, fullPage := true, type := type }])
      ∧ stdout (run w argv).trace = [html]
      ∧ (run w argv).outcome = Outcome.completed := by
  have hfin : finish w = { trace := [Event.content, Event.consoleLog html, Event.close]
                           outcome := Outcome.completed } := by
    simp [finish, hc, hx]
  rcases run_cases w argv u hu hne with
    ⟨h, -⟩ | ⟨-, h, -⟩ | ⟨-, -, h, -⟩ | ⟨-, -, -, hp, hr⟩
      | ⟨p, type, h3, hpne, hmem, ho, -, -, -, hw, hr⟩
      | ⟨p, type, h3, hpne, hmem, ho, -, -, -, hw, hr⟩
  · rw [hl] at h; exact absurd h (by decide)
  · rw [hn] at h; exact absurd h (by decide)
  · rw [hg] at h; exact absurd h (by decide)
  · rw [hr, hfin]
    refine ⟨fun _ => by simp [screenshots, captured], ?_, by simp [stdout], rfl⟩
    intro p h3 hpne
    rw [h3, truthy_some hpne] at hp
    exact absurd hp (by decide)
  · have hok := hs { path := p, fullPage := true, type := type } (by rw [hr]; simp)
    rw [hok] at hw
    exact absurd hw (by decide)
  · rw [hr, hfin]
    refine ⟨?_, ?_, by simp [stdout], rfl⟩
    · intro hnone
      rw [hnone] at h3
      exact absurd h3 (by simp)
    · intro q hq _
      rw [h3] at hq
      cases hq
      exact ⟨type, hmem, by simp [screenshots], by simp [screenshots, captured, hw]⟩

theorem capture_exactly_when_asked_witness :
    (argvWithJpg[3]? = none →
        screenshots (run (allSucceed pageHtml) argvWithJpg).trace = []
          ∧ captured (allSucceed pageHtml) (run (allSucceed pageHtml) argvWithJpg).trace = [])
      ∧ (∀ p, argvWithJpg[3]? = some p → p ≠ [] →
          ∃ type, type ∈ captureTypes
            ∧ screenshots (run (allSucceed pageHtml) argvWithJpg).trace
                = [{ path := p, fullPage := true, type := type }]
            ∧ captured (allSucceed pageHtml) (run (allSucceed pageHtml) argvWithJpg).trace
                = [{ path := p, fullPage := true, type := type }])
      ∧ stdout (run (allSucceed pageHtml) argvWithJpg).trace = [pageHtml]
      ∧ (run (allSucceed pageHtml) argvWithJpg).outcome = Outcome.completed :=
  capture_exactly_when_asked (allSucceed pageHtml) argvWithJpg sampleUrl pageHtml
    (by decide) (by decide) rfl rfl rfl (fun _ _ => rfl) rfl rfl

/-- C10: an empty-string URL gives the same run as an absent URL, the usage
error; an empty-string output path gives the same run as an absent output path,
and that run makes no screenshot call. -/
theorem empty_arguments_as_absent (w : World) (node script u : JSString)
    (rest : List JSString) :
    run w (node :: script :: [] :: rest) = run w [node, script]
      ∧ run w (node :: script :: [] :: rest) = usageError
      ∧ run w (node :: script :: u :: [] :: rest) = run w [node, script, u]
      ∧ screenshots (run w (node :: script :: u :: [] :: rest)).trace = [] := by
  have h1 : run w (node :: script :: [] :: rest) = usageError := by
    have he : run w (node :: script :: [] :: rest) = observe (render w (some []) rest[0]?) := by
      simp [run, main]
    rw [he]
    exact render_falsy w (some []) _ rfl
  have h2 : run w [node, script] = usageError := render_falsy w none _ rfl
  have h3 : run w (node :: script :: u :: [] :: rest) = run w [node, script, u] := by
    have he : run w (node :: script :: u :: [] :: rest)
        = observe (render w (some u) (some [])) := by
      simp [run, main]
    rw [he, render_empty_path]
    rfl
  refine ⟨h1.trans h2.symm, h1, h3, ?_⟩
  rw [h3]
  by_cases hne : u = []
  · subst hne
    have h4 : run w [node, script, []] = usageError := render_falsy w (some []) _ rfl
    rw [h4]
    rfl
  · rcases run_cases w [node, script, u] u rfl hne with
      ⟨-, hr⟩ | ⟨-, -, hr⟩ | ⟨-, -, -, hr⟩ | ⟨-, -, -, -, hr⟩
        | ⟨p, type, h3, -⟩ | ⟨p, type, h3, -⟩
    · rw [hr]; rfl
    · rw [hr]; rfl
    · rw [hr]; rfl
    · rw [hr]
      rcases finish_cases w with ⟨-, hf⟩ | ⟨html, -, -, hf⟩ | ⟨html, -, -, hf⟩ <;>
        rw [hf] <;> rfl
    · exact absurd h3 (by simp)
    · exact absurd h3 (by simp)

/-- C4, as the claim states it, fails: the browser starts, the page creation
fails, and the run ends without any close call. -/
theorem release_not_guaranteed :
    newPageFails.launch = true
      ∧ run newPageFails argvUrlOnly
          = { trace := [Event.launch, Event.newPage], outcome := Outcome.rejected }
      ∧ (run newPageFails argvUrlOnly).trace.count Event.close = 0 := by
  decide

/-- C4, amended: once the browser is acquired it is closed at most once; it is
closed exactly once, as the last call of the run, when page creation,
navigation, the capture (when one is made) and content extraction all succeed,
and it is not closed at all when one of them fails. -/
theorem release_when_later_steps_succeed (w : World) (argv : List JSString) (u : JSString)
    (hu : argv[2]? = some u) (hne : u ≠ []) (hl : w.launch = true) :
    (run w argv).trace.count Event.close ≤ 1
      ∧ (laterStepsSucceed w argv u = true →
          (run w argv).trace.count Event.close = 1
            ∧ (run w argv).trace.getLast? = some Event.close)
      ∧ (laterStepsSucceed w argv u = false → Event.close ∉ (run w argv).trace) := by
  unfold laterStepsSucceed
  rcases run_cases w argv u hu hne with
    ⟨h, -⟩ | ⟨-, hn, hr⟩ | ⟨-, -, hg, hr⟩ | ⟨-, hn, hg, -, hr⟩
      | ⟨p, type, -, -, -, -, -, -, -, hw, hr⟩
      | ⟨p, type, -, -, -, -, -, hn, hg, hw, hr⟩
  · rw [hl] at h; exact absurd h (by decide)
  · rw [hr]
    simp [hn]
  · rw [hr]
    simp [hg]
  · rw [hr]
    rcases finish_cases w with ⟨hc, hf⟩ | ⟨html, hc, -, hf⟩ | ⟨html, hc, -, hf⟩ <;>
      rw [hf] <;> simp [hn, hg, hc, screenshots, List.count_cons]
  · rw [hr]
    simp [screenshots, hw, List.count_cons]
  · rw [hr]
    rcases finish_cases w with ⟨hc, hf⟩ | ⟨html, hc, -, hf⟩ | ⟨html, hc, -, hf⟩ <;>
      rw [hf] <;> simp [hn, hg, hc, hw, screenshots, List.count_cons]

theorem release_when_later_steps_succeed_witness :
    (run (allSucceed pageHtml) argvWithJpg).trace.count Event.close ≤ 1
      ∧ (laterStepsSucceed (allSucceed pageHtml) argvWithJpg sampleUrl = true →
          (run (allSucceed pageHtml) argvWithJpg).trace.count Event.close = 1
            ∧ (run (allSucceed pageHtml) argvWithJpg).trace.getLast? = some Event.close)
      ∧ (laterStepsSucceed (allSucceed pageHtml) argvWithJpg sampleUrl = false →
          Event.close ∉ (run (allSucceed pageHtml) argvWithJpg).trace) :=
  release_when_later_steps_succeed (allSucceed pageHtml) argvWithJpg sampleUrl
    (by decide) (by decide) rfl

/-- C8, as the claim states it, fails.  With an output path, the screenshot is
captured, the content extraction fails, and the run is rejected with the image
written; without one, the HTML is printed, the final close fails, and the run
is rejected with the HTML on standard output. -/
theorem failure_after_output :
    (run contentFails argvWithPng
        = { trace := [Event.launch, Event.newPage, Event.goto sampleUrl networkidle,
              Event.screenshot
                { path := "page.png".toList, fullPage := true, type := "png".toList },
              Event.content]
            outcome := Outcome.rejected }
      ∧ captured contentFails (run contentFails argvWithPng).trace
          = [{ path := "page.png".toList, fullPage := true, type := "png".toList }])
      ∧ (run closeFails argvUrlOnly
          = { trace := [Event.launch, Event.newPage, Event.goto sampleUrl networkidle,
                Event.content, Event.consoleLog pageHtml, Event.close]
              outcome := Outcome.rejected }
        ∧ stdout (run closeFails argvUrlOnly).trace = [pageHtml]) := by
  decide

/-- C8, amended: with a non-empty URL a run either completes, with the HTML
printed and the image captured when a non-empty output path is given, or is
rejected; a rejected run has printed the HTML only when the failing call is the
final close, and has captured an image only when the failing call is the
content extraction or the final close. -/
theorem failure_leaves_output_only_after_late_steps (w : World) (argv : List JSString)
    (u : JSString) (hu : argv[2]? = some u) (hne : u ≠ []) :
    ((run w argv).outcome = Outcome.completed
        ∧ (∃ html, w.content = some html ∧ stdout (run w argv).trace = [html])
        ∧ (∀ p, argv[3]? = some p → p ≠ [] →
            ∃ type, captured w (run w argv).trace
              = [{ path := p, fullPage := true, type := type }]))
      ∨ ((run w argv).outcome = Outcome.rejected
          ∧ exitStatus (run w argv).outcome ≠ 0
          ∧ (stdout (run w argv).trace ≠ [] →
              w.close = false ∧ (run w argv).trace.getLast? = some Event.close)
          ∧ (captured w (run w argv).trace ≠ [] →
              (w.content = none ∧ (run w argv).trace.getLast? = some Event.content)
                ∨ (w.close = false ∧ (run w argv).trace.getLast? = some Event.close))) := by
  rcases run_cases w argv u hu hne with
    ⟨-, hr⟩ | ⟨-, -, hr⟩ | ⟨-, -, -, hr⟩ | ⟨-, -, -, hp, hr⟩
      | ⟨p, type, -, -, -, -, -, -, -, hw, hr⟩
      | ⟨p, type, h3, -, -, -, -, -, -, hw, hr⟩
  · rw [hr]; exact Or.inr (by simp [exitStatus, stdout, captured, screenshots])
  · rw [hr]; exact Or.inr (by simp [exitStatus, stdout, captured, screenshots])
  · rw [hr]; exact Or.inr (by simp [exitStatus, stdout, captured, screenshots])
  · rw [hr]
    rcases finish_cases w with ⟨hc, hf⟩ | ⟨html, hc, hx, hf⟩ | ⟨html, hc, hx, hf⟩
    · rw [hf]; exact Or.inr (by simp [exitStatus, stdout, captured, screenshots])
    · rw [hf]; exact Or.inr (by simp [exitStatus, stdout, captured, screenshots, hx])
    · rw [hf]
      refine Or.inl ⟨rfl, ⟨html, hc, by simp [stdout]⟩, ?_⟩
      intro q hq hqne
      rw [hq, truthy_some hqne] at hp
      exact absurd hp (by decide)
  · rw [hr]; exact Or.inr (by simp [exitStatus, stdout, captured, screenshots, hw])
  · rw [hr]
    rcases finish_cases w with ⟨hc, hf⟩ | ⟨html, hc, hx, hf⟩ | ⟨html, hc, hx, hf⟩
    · rw [hf]; exact Or.inr (by simp [exitStatus, stdout, captured, screenshots, hc])
    · rw [hf]; exact Or.inr (by simp [exitStatus, stdout, captured, screenshots, hx])
    · rw [hf]
      refine Or.inl ⟨rfl, ⟨html, hc, by simp [stdout]⟩, ?_⟩
      intro q hq _
      rw [h3] at hq
      cases hq
      exact ⟨type, by simp [captured, screenshots, hw]⟩

theorem failure_leaves_output_only_after_late_steps_witness :
    ((run contentFails argvWithPng).outcome = Outcome.completed
        ∧ (∃ html, contentFails.content = some html
            ∧ stdout (run contentFails argvWithPng).trace = [html])
        ∧ (∀ p, argvWithPng[3]? = some p → p ≠ [] →
            ∃ type, captured contentFails (run contentFails argvWithPng).trace
              = [{ path := p, fullPage := true, type := type }]))
      ∨ ((run contentFails argvWithPng).outcome = Outcome.rejected
          ∧ exitStatus (run contentFails argvWithPng).outcome ≠ 0
          ∧ (stdout (run contentFails argvWithPng).trace ≠ [] →
              contentFails.close = false
                ∧ (run contentFails argvWithPng).trace.getLast? = some Event.close)
          ∧ (captured contentFails (run contentFails argvWithPng).trace ≠ [] →
              (contentFails.content = none
                  ∧ (run contentFails argvWithPng).trace.getLast? = some Event.content)
                ∨ (contentFails.close = false
                    ∧ (run contentFails argvWithPng).trace.getLast? = some Event.close))) :=
  failure_leaves_output_only_after_late_steps contentFails argvWithPng sampleUrl
    (by decide) (by decide)

end Render
